import Mathlib

/-!
Verification of the databasus-mcp core.

Shallow embedding of the non-trivial core of the databasus-mcp
repository: the DatabasusClient HTTP gateway (client class in the
source, next to the type declarations) and the two sensitive-field
redactors, maskSensitiveConfig in src/tools/backups.ts and
maskSensitiveConfig in src/tools/notifiers.ts.

JavaScript values appearing in the freeform config maps are modelled by
the inductive type Value (string, number, boolean, null, nested object,
array).  JavaScript string operations used by the code (toLowerCase,
includes, substring, and replace with the regex matching one trailing
slash) are modelled on the character list underlying a Lean String.
-/

/-- A JSON-like JavaScript value, as stored in a freeform config map
(a Record from string to unknown in the source).  Objects keep their
fields as an ordered association list, matching the enumeration order
of Object.entries. -/
inductive Value where
  | vStr (s : String)
  | vNum (n : Int)
  | vBool (b : Bool)
  | vNull
  | vObj (fields : List (String × Value))
  | vArr (elems : List Value)

/-- Test for a string value, modelling the typeof check against the
string type in the source. -/
def Value.isString : Value → Bool
  | .vStr _ => true
  | _ => false

mutual

/-- Boolean equality on modelled values (structural). -/
def beqValue : Value → Value → Bool
  | .vStr a, .vStr b => a == b
  | .vNum a, .vNum b => a == b
  | .vBool a, .vBool b => a == b
  | .vNull, .vNull => true
  | .vObj a, .vObj b => beqFields a b
  | .vArr a, .vArr b => beqElems a b
  | _, _ => false

/-- Boolean equality on object field lists. -/
def beqFields : List (String × Value) → List (String × Value) → Bool
  | [], [] => true
  | (k, v) :: r, (k2, v2) :: r2 => k == k2 && beqValue v v2 && beqFields r r2
  | _, _ => false

/-- Boolean equality on array element lists. -/
def beqElems : List Value → List Value → Bool
  | [], [] => true
  | v :: r, v2 :: r2 => beqValue v v2 && beqElems r r2
  | _, _ => false

end

mutual

/-- The boolean equality beqValue decides propositional equality. -/
theorem beqValue_iff : (a b : Value) → (beqValue a b = true ↔ a = b)
  | .vObj a, .vObj b => by
      simp only [beqValue, Value.vObj.injEq]
      exact beqFields_iff a b
  | .vArr a, .vArr b => by
      simp only [beqValue, Value.vArr.injEq]
      exact beqElems_iff a b
  | .vStr a, .vStr b => by simp [beqValue]
  | .vNum a, .vNum b => by simp [beqValue]
  | .vBool a, .vBool b => by simp [beqValue]
  | .vNull, .vNull => by simp [beqValue]
  | .vStr a, .vNum b => by simp [beqValue]
  | .vStr a, .vBool b => by simp [beqValue]
  | .vStr a, .vNull => by simp [beqValue]
  | .vStr a, .vObj b => by simp [beqValue]
  | .vStr a, .vArr b => by simp [beqValue]
  | .vNum a, .vStr b => by simp [beqValue]
  | .vNum a, .vBool b => by simp [beqValue]
  | .vNum a, .vNull => by simp [beqValue]
  | .vNum a, .vObj b => by simp [beqValue]
  | .vNum a, .vArr b => by simp [beqValue]
  | .vBool a, .vStr b => by simp [beqValue]
  | .vBool a, .vNum b => by simp [beqValue]
  | .vBool a, .vNull => by simp [beqValue]
  | .vBool a, .vObj b => by simp [beqValue]
  | .vBool a, .vArr b => by simp [beqValue]
  | .vNull, .vStr b => by simp [beqValue]
  | .vNull, .vNum b => by simp [beqValue]
  | .vNull, .vBool b => by simp [beqValue]
  | .vNull, .vObj b => by simp [beqValue]
  | .vNull, .vArr b => by simp [beqValue]
  | .vObj a, .vStr b => by simp [beqValue]
  | .vObj a, .vNum b => by simp [beqValue]
  | .vObj a, .vBool b => by simp [beqValue]
  | .vObj a, .vNull => by simp [beqValue]
  | .vObj a, .vArr b => by simp [beqValue]
  | .vArr a, .vStr b => by simp [beqValue]
  | .vArr a, .vNum b => by simp [beqValue]
  | .vArr a, .vBool b => by simp [beqValue]
  | .vArr a, .vNull => by simp [beqValue]
  | .vArr a, .vObj b => by simp [beqValue]

/-- The boolean equality beqFields decides propositional equality. -/
theorem beqFields_iff : (a b : List (String × Value)) → (beqFields a b = true ↔ a = b)
  | [], [] => by simp [beqFields]
  | [], _ :: _ => by simp [beqFields]
  | _ :: _, [] => by simp [beqFields]
  | (k, v) :: r, (k2, v2) :: r2 => by
      simp only [beqFields, Bool.and_eq_true, beq_iff_eq, List.cons.injEq, Prod.mk.injEq]
      rw [beqValue_iff v v2, beqFields_iff r r2]

/-- The boolean equality beqElems decides propositional equality. -/
theorem beqElems_iff : (a b : List Value) → (beqElems a b = true ↔ a = b)
  | [], [] => by simp [beqElems]
  | [], _ :: _ => by simp [beqElems]
  | _ :: _, [] => by simp [beqElems]
  | v :: r, v2 :: r2 => by
      simp only [beqElems, Bool.and_eq_true, List.cons.injEq]
      rw [beqValue_iff v v2, beqElems_iff r r2]

end

instance : DecidableEq Value :=
  fun a b => decidable_of_iff (beqValue a b = true) (beqValue_iff a b)

/-- Model of the JavaScript toLowerCase method on strings (the keys
handled by the code are ASCII; Char.toLower lower-cases exactly the
basic latin letters). -/
def jsToLowerCase (s : String) : String :=
  ⟨s.data.map Char.toLower⟩

/-- Helper for jsIncludes: does pat occur as a contiguous run inside
the list? -/
def containsSub (pat : List Char) : List Char → Bool
  | [] => pat.isEmpty
  | c :: rest => pat.isPrefixOf (c :: rest) || containsSub pat rest

/-- Model of the JavaScript includes method on strings: substring
test. -/
def jsIncludes (s pat : String) : Bool :=
  containsSub pat.data s.data

/-- Model of the JavaScript substring method with arguments 0 and n:
the first n characters of the string. -/
def jsSubstring (s : String) (n : Nat) : String :=
  ⟨s.data.take n⟩

/-- First-match lookup in an ordered association list, modelling
property access on a parsed JSON object (whose keys are unique). -/
def assocLookup {β : Type} (name : String) : List (String × β) → Option β
  | [] => none
  | (k, v) :: rest => if k = name then some v else assocLookup name rest

namespace Backups

/-- The SENSITIVE_KEYS constant of src/tools/backups.ts line 199,
verbatim. -/
def SENSITIVE_KEYS : List String :=
  ["password", "secret", "key", "token", "credential", "apiKey",
   "api_key", "accessKey", "access_key", "secretKey", "secret_key"]

/-- The sensitivity test of src/tools/backups.ts lines 204-205: some
element of SENSITIVE_KEYS is contained in the lower-cased key. -/
def isSensitive (key : String) : Bool :=
  SENSITIVE_KEYS.any (fun sensitive => jsIncludes (jsToLowerCase key) sensitive)

mutual

/-- Processing of a single entry by the loop body of the storage-config
maskSensitiveConfig (src/tools/backups.ts lines 203-213): a sensitive
key with a string value is replaced by the three-asterisk marker; an
object-typed non-null value (which in JavaScript includes arrays) is
recursed into via Object.entries; anything else is copied. -/
def maskEntry (key : String) (value : Value) : Value :=
  if isSensitive key && value.isString then .vStr "***"
  else
    match value with
    | .vObj fields => .vObj (maskFields fields)
    | .vArr elems => .vObj (maskElems 0 elems)
    | other => other

/-- The entry loop of the storage-config maskSensitiveConfig over an
object's entries. -/
def maskFields : List (String × Value) → List (String × Value)
  | [] => []
  | (key, value) :: rest => (key, maskEntry key value) :: maskFields rest

/-- Object.entries of an array yields index-keyed entries, so recursing
on an array value produces an object keyed by decimal indices. -/
def maskElems (i : Nat) : List Value → List (String × Value)
  | [] => []
  | v :: rest => (toString i, maskEntry (toString i) v) :: maskElems (i + 1) rest

end

/-- The maskSensitiveConfig function of src/tools/backups.ts lines
201-215 (storage-config redactor). -/
def maskSensitiveConfig (config : List (String × Value)) : List (String × Value) :=
  maskFields config

end Backups

namespace Notifiers

/-- The sensitiveKeys constant of src/tools/notifiers.ts line 7,
verbatim. -/
def sensitiveKeys : List String :=
  ["url", "webhook_url", "webhookUrl", "token", "api_key", "apiKey",
   "password", "secret", "bot_token", "botToken", "access_token", "accessToken"]

/-- The sensitivity test of src/tools/notifiers.ts lines 11-12. -/
def isSensitive (key : String) : Bool :=
  sensitiveKeys.any (fun sk => jsIncludes (jsToLowerCase key) sk)

/-- The maskSensitiveConfig function of src/tools/notifiers.ts lines
6-22 (notification-channel redactor): one pass over the top-level
entries, with no recursion into nested values; a sensitive key with a
string value becomes the REDACTED marker, every other entry is copied
unchanged. -/
def maskSensitiveConfig : List (String × Value) → List (String × Value)
  | [] => []
  | (key, value) :: rest =>
    (if isSensitive key && value.isString then (key, Value.vStr "***REDACTED***")
     else (key, value)) :: maskSensitiveConfig rest

end Notifiers

/-- The configuration record accepted by the client constructor
(DatabasusConfig in the source): base URL plus optional API key and
optional bearer token. -/
structure DatabasusConfig where
  baseUrl : String
  apiKey : Option String
  bearerToken : Option String

/-- Model of the replace call of the constructor applied to the base
URL with the regex matching a final slash: the regex matches exactly
when the last character is a slash, and a non-global replace removes
only that first (single) match. -/
def replaceTrailingSlashOnce (s : String) : String :=
  if s.data.getLast? = some '/' then ⟨s.data.dropLast⟩ else s

/-- The state stored by the DatabasusClient class: the three private
fields set by the constructor and never reassigned. -/
structure DatabasusClient where
  baseUrl : String
  apiKey : Option String
  bearerToken : Option String

/-- The DatabasusClient constructor: strips one trailing slash from the
base URL and stores both credentials as given. -/
def DatabasusClient.make (config : DatabasusConfig) : DatabasusClient :=
  { baseUrl := replaceTrailingSlashOnce config.baseUrl,
    apiKey := config.apiKey,
    bearerToken := config.bearerToken }

/-- JavaScript truthiness of an optional string field: an absent field
and the empty string are falsy, every other string is truthy. -/
def jsTruthy : Option String → Bool
  | none => false
  | some s => !(s == "")

/-- The getHeaders method of DatabasusClient: a Content-Type header
always, then Authorization when the bearer token is truthy, else the
X-API-Key header when the API key is truthy. -/
def DatabasusClient.getHeaders (c : DatabasusClient) : List (String × String) :=
  let headers := [("Content-Type", "application/json")]
  if jsTruthy c.bearerToken then
    headers ++ [("Authorization", "Bearer " ++ c.bearerToken.getD "")]
  else if jsTruthy c.apiKey then
    headers ++ [("X-API-Key", c.apiKey.getD "")]
  else
    headers

/-- An HTTP response as observed by the request method: numeric status
and the full body text. -/
structure HttpResponse where
  status : Nat
  text : String

/-- The ok flag of a fetch Response: status in the range 200-299. -/
def HttpResponse.ok (r : HttpResponse) : Bool :=
  decide (200 ≤ r.status) && decide (r.status < 300)

/-- The value with which the underlying fetch promise rejects on a
transport-level failure: either a JavaScript Error carrying a message,
or any other (non-Error) value. -/
inductive RejectionValue where
  | jsError (message : String)
  | notAnError

/-- Outcome of the fetch call: rejection before any response, or a
resolved response. -/
inductive FetchOutcome where
  | rejected (value : RejectionValue)
  | resolved (resp : HttpResponse)

/-- The message built by the catch block around fetch in the request
method: the Error message when the rejection value is an Error, the
fixed Unknown-error text otherwise. -/
def networkErrorMessage : RejectionValue → String
  | .jsError m => "Network error: " ++ m
  | .notAnError => "Network error: Unknown error"

/-- The extractErrorMessage method of DatabasusClient: when the parsed
body is a non-null object with a string error field, that field; else
when it has a string message field, that field; else the generic
HTTP-error text with the status.  Arrays and other non-object values
have no error or message property and fall through to the generic
text, as in the source. -/
def extractErrorMessage (data : Option Value) (status : Nat) : String :=
  match data with
  | some (.vObj fields) =>
    match assocLookup "error" fields with
    | some (.vStr s) => s
    | _ =>
      match assocLookup "message" fields with
      | some (.vStr s) => s
      | _ => "HTTP error " ++ toString status
  | _ => "HTTP error " ++ toString status

/-- The body-handling part of the request method of DatabasusClient,
parameterized by the JSON parser (a platform builtin, left abstract):
a non-empty body is parsed, a parse failure throws the invalid-JSON
error with the body truncated to 100 characters, then a non-2xx status
throws the extracted error message, and otherwise the parsed data (or
nothing, for an empty body) is returned. -/
def handleResponse (parse : String → Option Value) (resp : HttpResponse) :
    Except String (Option Value) :=
  if resp.text = "" then
    if resp.ok then .ok none
    else .error (extractErrorMessage none resp.status)
  else
    match parse resp.text with
    | none => .error ("Invalid JSON response: " ++ jsSubstring resp.text 100)
    | some d =>
      if resp.ok then .ok (some d)
      else .error (extractErrorMessage (some d) resp.status)

/-- The request method of DatabasusClient: a rejected fetch throws the
network-error message, a resolved response is handled by the body
logic. -/
def request (parse : String → Option Value) (outcome : FetchOutcome) :
    Except String (Option Value) :=
  match outcome with
  | .rejected v => .error (networkErrorMessage v)
  | .resolved r => handleResponse parse r

/-- The executable substring test agrees with the infix relation on the
underlying character lists. -/
theorem containsSub_iff (pat l : List Char) : containsSub pat l = true ↔ pat <:+: l := by
  induction l with
  | nil =>
    simp [containsSub, List.isEmpty_iff, List.infix_nil]
  | cons c rest ih =>
    simp [containsSub, List.isPrefixOf_iff_prefix, ih, List.infix_cons_iff]

/-- The modelled includes method agrees with the infix relation. -/
theorem jsIncludes_iff (s pat : String) :
    jsIncludes s pat = true ↔ pat.data <:+: s.data :=
  containsSub_iff pat.data s.data

/-- Converting a small scalar value to a character and back is the
identity. -/
theorem char_toNat_ofNat {n : Nat} (h : n < 55296) : (Char.ofNat n).toNat = n := by
  unfold Char.ofNat
  rw [dif_pos (Or.inl h)]
  rfl

/-- Lower-casing a character never yields a basic latin capital
letter. -/
theorem toLower_not_upper (c : Char) :
    ¬(65 ≤ (Char.toLower c).toNat ∧ (Char.toLower c).toNat ≤ 90) := by
  have hdef : Char.toLower c =
      if 65 ≤ c.toNat ∧ c.toNat ≤ 90 then Char.ofNat (c.toNat + 32) else c := rfl
  rw [hdef]
  by_cases h : 65 ≤ c.toNat ∧ c.toNat ≤ 90
  · rw [if_pos h, char_toNat_ofNat (by omega)]
    omega
  · rw [if_neg h]
    exact h

/-- A pattern containing a capital letter is never found inside a
lower-cased key. -/
theorem jsIncludes_toLower_upper_false (k pat : String) (u : Char)
    (hu : 65 ≤ u.toNat ∧ u.toNat ≤ 90) (hmem : u ∈ pat.data) :
    jsIncludes (jsToLowerCase k) pat = false := by
  rw [Bool.eq_false_iff]
  intro htrue
  have hinf : pat.data <:+: (jsToLowerCase k).data := (jsIncludes_iff _ _).mp htrue
  have hmemL : u ∈ (k.data.map Char.toLower) := hinf.subset hmem
  obtain ⟨c, -, hc⟩ := List.mem_map.mp hmemL
  exact toLower_not_upper c (by rw [hc]; exact hu)

/-- A string containing a pattern also contains every infix of that
pattern. -/
theorem jsIncludes_mono {sub pat : String} (hsub : sub.data <:+: pat.data) (s : String) :
    jsIncludes s pat = true → jsIncludes s sub = true := by
  intro h
  exact (jsIncludes_iff _ _).mpr (hsub.trans ((jsIncludes_iff _ _).mp h))

/-- The storage-config sensitivity test is equivalent to testing the
five effective substrings password, secret, key, token and credential:
the underscore variants in SENSITIVE_KEYS are subsumed by these, and
the camel-case variants can never match a lower-cased key. -/
theorem Backups.storageSensitive_effective (k : String) :
    Backups.isSensitive k =
      (jsIncludes (jsToLowerCase k) "password" || jsIncludes (jsToLowerCase k) "secret" ||
       jsIncludes (jsToLowerCase k) "key" || jsIncludes (jsToLowerCase k) "token" ||
       jsIncludes (jsToLowerCase k) "credential") := by
  have hApiKey : jsIncludes (jsToLowerCase k) "apiKey" = false :=
    jsIncludes_toLower_upper_false k "apiKey" 'K' (by decide) (by decide)
  have hAccessKey : jsIncludes (jsToLowerCase k) "accessKey" = false :=
    jsIncludes_toLower_upper_false k "accessKey" 'K' (by decide) (by decide)
  have hSecretKey : jsIncludes (jsToLowerCase k) "secretKey" = false :=
    jsIncludes_toLower_upper_false k "secretKey" 'K' (by decide) (by decide)
  have hak : jsIncludes (jsToLowerCase k) "api_key" = true →
      jsIncludes (jsToLowerCase k) "key" = true :=
    jsIncludes_mono ((jsIncludes_iff "api_key" "key").mp (by decide)) _
  have hack : jsIncludes (jsToLowerCase k) "access_key" = true →
      jsIncludes (jsToLowerCase k) "key" = true :=
    jsIncludes_mono ((jsIncludes_iff "access_key" "key").mp (by decide)) _
  have hsk : jsIncludes (jsToLowerCase k) "secret_key" = true →
      jsIncludes (jsToLowerCase k) "secret" = true :=
    jsIncludes_mono ((jsIncludes_iff "secret_key" "secret").mp (by decide)) _
  rw [Bool.eq_iff_iff]
  simp only [Backups.isSensitive, Backups.SENSITIVE_KEYS, List.any_cons, List.any_nil,
    Bool.or_eq_true, Bool.false_eq_true, or_false]
  constructor
  · rintro (h | h | h | h | h | h | h | h | h | h | h)
    · tauto
    · tauto
    · tauto
    · tauto
    · tauto
    · rw [hApiKey] at h
      exact absurd h (by decide)
    · have := hak h
      tauto
    · rw [hAccessKey] at h
      exact absurd h (by decide)
    · have := hack h
      tauto
    · rw [hSecretKey] at h
      exact absurd h (by decide)
    · have := hsk h
      tauto
  · intro h
    tauto

/-- The notification-channel sensitivity test is equivalent to testing
the five effective substrings url, token, api_key, password and secret:
the underscore variants in sensitiveKeys are subsumed by these, and the
camel-case variants can never match a lower-cased key. -/
theorem Notifiers.notifierSensitive_effective (k : String) :
    Notifiers.isSensitive k =
      (jsIncludes (jsToLowerCase k) "url" || jsIncludes (jsToLowerCase k) "token" ||
       jsIncludes (jsToLowerCase k) "api_key" || jsIncludes (jsToLowerCase k) "password" ||
       jsIncludes (jsToLowerCase k) "secret") := by
  have hWebhookUrl : jsIncludes (jsToLowerCase k) "webhookUrl" = false :=
    jsIncludes_toLower_upper_false k "webhookUrl" 'U' (by decide) (by decide)
  have hApiKey : jsIncludes (jsToLowerCase k) "apiKey" = false :=
    jsIncludes_toLower_upper_false k "apiKey" 'K' (by decide) (by decide)
  have hBotToken : jsIncludes (jsToLowerCase k) "botToken" = false :=
    jsIncludes_toLower_upper_false k "botToken" 'T' (by decide) (by decide)
  have hAccessToken : jsIncludes (jsToLowerCase k) "accessToken" = false :=
    jsIncludes_toLower_upper_false k "accessToken" 'T' (by decide) (by decide)
  have hwu : jsIncludes (jsToLowerCase k) "webhook_url" = true →
      jsIncludes (jsToLowerCase k) "url" = true :=
    jsIncludes_mono ((jsIncludes_iff "webhook_url" "url").mp (by decide)) _
  have hbt : jsIncludes (jsToLowerCase k) "bot_token" = true →
      jsIncludes (jsToLowerCase k) "token" = true :=
    jsIncludes_mono ((jsIncludes_iff "bot_token" "token").mp (by decide)) _
  have hat : jsIncludes (jsToLowerCase k) "access_token" = true →
      jsIncludes (jsToLowerCase k) "token" = true :=
    jsIncludes_mono ((jsIncludes_iff "access_token" "token").mp (by decide)) _
  rw [Bool.eq_iff_iff]
  simp only [Notifiers.isSensitive, Notifiers.sensitiveKeys, List.any_cons, List.any_nil,
    Bool.or_eq_true, Bool.false_eq_true, or_false]
  constructor
  · rintro (h | h | h | h | h | h | h | h | h | h | h | h)
    · tauto
    · have := hwu h
      tauto
    · rw [hWebhookUrl] at h
      exact absurd h (by decide)
    · tauto
    · tauto
    · rw [hApiKey] at h
      exact absurd h (by decide)
    · tauto
    · tauto
    · have := hbt h
      tauto
    · rw [hBotToken] at h
      exact absurd h (by decide)
    · have := hat h
      tauto
    · rw [hAccessToken] at h
      exact absurd h (by decide)
  · intro h
    tauto

mutual

/-- Masking a single storage-config entry twice equals masking it
once. -/
theorem Backups.maskEntry_idem (key : String) (value : Value) :
    Backups.maskEntry key (Backups.maskEntry key value) = Backups.maskEntry key value := by
  cases value with
  | vStr s =>
    by_cases h : Backups.isSensitive key = true
    · simp [Backups.maskEntry, Value.isString, h]
    · simp [Backups.maskEntry, Value.isString, h]
  | vObj fields =>
    simp [Backups.maskEntry, Value.isString, Backups.maskFields_idem fields]
  | vArr elems =>
    simp [Backups.maskEntry, Value.isString, Backups.maskElems_fixed 0 elems]
  | vNum n => simp [Backups.maskEntry, Value.isString]
  | vBool b => simp [Backups.maskEntry, Value.isString]
  | vNull => simp [Backups.maskEntry, Value.isString]

/-- The storage-config entry loop is idempotent. -/
theorem Backups.maskFields_idem (fs : List (String × Value)) :
    Backups.maskFields (Backups.maskFields fs) = Backups.maskFields fs := by
  match fs with
  | [] => simp [Backups.maskFields]
  | (k, v) :: rest =>
    simp [Backups.maskFields, Backups.maskEntry_idem k v, Backups.maskFields_idem rest]

/-- Entries produced from an array by the storage-config redactor are
already fully masked. -/
theorem Backups.maskElems_fixed (i : Nat) (es : List Value) :
    Backups.maskFields (Backups.maskElems i es) = Backups.maskElems i es := by
  match es with
  | [] => simp [Backups.maskElems, Backups.maskFields]
  | v :: rest =>
    simp [Backups.maskElems, Backups.maskFields, Backups.maskEntry_idem (toString i) v,
      Backups.maskElems_fixed (i + 1) rest]

end

/-- The storage-config redactor preserves the key list (names and
order) of every object level it processes. -/
theorem Backups.maskFields_keys (fs : List (String × Value)) :
    (Backups.maskFields fs).map Prod.fst = fs.map Prod.fst := by
  induction fs with
  | nil => simp [Backups.maskFields]
  | cons kv rest ih =>
    obtain ⟨k, v⟩ := kv
    simp [Backups.maskFields, ih]

/-- The notification-channel redactor preserves the key list (names and
order). -/
theorem Notifiers.mask_keys (fs : List (String × Value)) :
    (Notifiers.maskSensitiveConfig fs).map Prod.fst = fs.map Prod.fst := by
  induction fs with
  | nil => simp [Notifiers.maskSensitiveConfig]
  | cons kv rest ih =>
    obtain ⟨k, v⟩ := kv
    simp only [Notifiers.maskSensitiveConfig]
    split <;> simp [ih]

/-- The notification-channel redactor is idempotent. -/
theorem Notifiers.mask_idem (fs : List (String × Value)) :
    Notifiers.maskSensitiveConfig (Notifiers.maskSensitiveConfig fs)
      = Notifiers.maskSensitiveConfig fs := by
  induction fs with
  | nil => simp [Notifiers.maskSensitiveConfig]
  | cons kv rest ih =>
    obtain ⟨k, v⟩ := kv
    by_cases h : (Notifiers.isSensitive k && v.isString) = true
    · have h1 : Notifiers.isSensitive k = true := by
        cases hb : Notifiers.isSensitive k
        · rw [hb] at h
          simp at h
        · rfl
      have e1 : Notifiers.maskSensitiveConfig ((k, v) :: rest)
          = (k, Value.vStr "***REDACTED***") :: Notifiers.maskSensitiveConfig rest := by
        simp only [Notifiers.maskSensitiveConfig]
        rw [if_pos h]
      have e2 : Notifiers.maskSensitiveConfig
            ((k, Value.vStr "***REDACTED***") :: Notifiers.maskSensitiveConfig rest)
          = (k, Value.vStr "***REDACTED***")
            :: Notifiers.maskSensitiveConfig (Notifiers.maskSensitiveConfig rest) := by
        simp only [Notifiers.maskSensitiveConfig]
        rw [if_pos (by simp [h1, Value.isString])]
      rw [e1, e2, ih]
    · have e1 : Notifiers.maskSensitiveConfig ((k, v) :: rest)
          = (k, v) :: Notifiers.maskSensitiveConfig rest := by
        simp only [Notifiers.maskSensitiveConfig]
        rw [if_neg h]
      have e2 : Notifiers.maskSensitiveConfig ((k, v) :: Notifiers.maskSensitiveConfig rest)
          = (k, v) :: Notifiers.maskSensitiveConfig (Notifiers.maskSensitiveConfig rest) := by
        simp only [Notifiers.maskSensitiveConfig]
        rw [if_neg h]
      rw [e1, e2, ih]

/-- The invalid-JSON error message is never equal to the generic
HTTP-error message: the two have different first characters. -/
theorem invalidJson_ne_httpError (x : String) (st : Nat) :
    "Invalid JSON response: " ++ x ≠ "HTTP error " ++ toString st := by
  intro h
  have h1 : ("Invalid JSON response: " ++ x).data.head? = some 'I' := by
    rw [ String.data_append]
    rfl
  have h2 : ("HTTP error " ++ toString st).data.head? = some 'H' := by
    rw [ String.data_append]
    rfl
  rw [h, h2] at h1
  exact absurd h1 (by decide)

/-- Helper for claim C5: when no string error field is present, the
extracted message is determined by the message field. -/
theorem extract_no_error_str (fields : List (String × Value)) (st : Nat)
    (hno : ∀ t, assocLookup "error" fields ≠ some (Value.vStr t)) :
    extractErrorMessage (some (Value.vObj fields)) st
      = match assocLookup "message" fields with
        | some (Value.vStr s) => s
        | _ => "HTTP error " ++ toString st := by
  cases hcase : assocLookup "error" fields with
  | none => simp only [extractErrorMessage, hcase]
  | some v =>
    cases v with
    | vStr t => exact absurd hcase (hno t)
    | vNum n => simp only [extractErrorMessage, hcase]
    | vBool b => simp only [extractErrorMessage, hcase]
    | vNull => simp only [extractErrorMessage, hcase]
    | vObj f => simp only [extractErrorMessage, hcase]
    | vArr e => simp only [extractErrorMessage, hcase]

/-- Helper for claim C5: when no string message field is present either,
the extracted message is the generic HTTP-error text. -/
theorem extract_no_message_str (fields : List (String × Value)) (st : Nat)
    (hnomsg : ∀ t, assocLookup "message" fields ≠ some (Value.vStr t)) :
    (match assocLookup "message" fields with
      | some (Value.vStr s) => s
      | _ => "HTTP error " ++ toString st) = "HTTP error " ++ toString st := by
  cases hcase : assocLookup "message" fields with
  | none => simp only [hcase]
  | some v =>
    cases v with
    | vStr t => exact absurd hcase (hnomsg t)
    | vNum n => simp only [hcase]
    | vBool b => simp only [hcase]
    | vNull => simp only [hcase]
    | vObj f => simp only [hcase]
    | vArr e => simp only [hcase]

/-- C1 (corrected).  Only the storage-config redactor recursively
processes entries whose value is a nested mapping (so secrets nested
arbitrarily deep are caught by it, as in the spec's end-to-end
example); the notification-channel redactor does not recurse: an entry
whose value is a nested mapping is copied unchanged, at any position of
the input map. -/
theorem claim_c1 (key : String) (fields config : List (String × Value))
    (h : (key, Value.vObj fields) ∈ config) :
    Backups.maskEntry key (Value.vObj fields)
      = Value.vObj (Backups.maskSensitiveConfig fields)
    ∧ (key, Value.vObj fields) ∈ Notifiers.maskSensitiveConfig config
    ∧ Backups.maskSensitiveConfig
        [("connection", Value.vObj [("host", Value.vStr "s3.amazonaws.com"),
            ("secret", Value.vStr "x"),
            ("nested", Value.vObj [("apiKey", Value.vStr "y")])]),
         ("regular", Value.vStr "visible")]
      = [("connection", Value.vObj [("host", Value.vStr "s3.amazonaws.com"),
            ("secret", Value.vStr "***"),
            ("nested", Value.vObj [("apiKey", Value.vStr "***")])]),
         ("regular", Value.vStr "visible")] := by
  refine ⟨?_, ?_, by decide⟩
  · simp [Backups.maskEntry, Value.isString, Backups.maskSensitiveConfig]
  · induction config with
    | nil => cases h
    | cons kv rest ih =>
      rcases List.mem_cons.mp h with heq | hmem
      · subst heq
        simp [Notifiers.maskSensitiveConfig, Value.isString]
      · exact List.mem_cons_of_mem _ (ih hmem)

/-- C1, counterexample to the claim as stated: the notification-channel
redactor leaves a password nested one level down untouched. -/
theorem claim_c1_counterexample :
    Notifiers.maskSensitiveConfig
        [("settings", Value.vObj [("password", Value.vStr "hunter2")])]
      = [("settings", Value.vObj [("password", Value.vStr "hunter2")])]
    ∧ Notifiers.maskSensitiveConfig
        [("settings", Value.vObj [("password", Value.vStr "hunter2")])]
      ≠ [("settings", Value.vObj [("password", Value.vStr "***REDACTED***")])] :=
  ⟨by decide, by decide⟩

/-- C1, witness: the amended claim applied at a concrete one-entry
configuration holding a nested password. -/
theorem claim_c1_witness :
    Backups.maskEntry "a" (Value.vObj [("password", Value.vStr "x")])
      = Value.vObj (Backups.maskSensitiveConfig [("password", Value.vStr "x")])
    ∧ ("a", Value.vObj [("password", Value.vStr "x")])
      ∈ Notifiers.maskSensitiveConfig [("a", Value.vObj [("password", Value.vStr "x")])] :=
  ⟨(claim_c1 "a" [("password", Value.vStr "x")]
      [("a", Value.vObj [("password", Value.vStr "x")])] (by decide)).1,
   (claim_c1 "a" [("password", Value.vStr "x")]
      [("a", Value.vObj [("password", Value.vStr "x")])] (by decide)).2.1⟩

/-- C2 (corrected).  The two redactors use different keyword sets.  The
storage-config redactor masks string values whose lower-cased key
contains password, secret, key, token or credential, and nothing else
(in particular not url); the notification-channel redactor masks keys
containing url, token, api_key, password or secret, and nothing else
(in particular not bare key and not credential).  Hence secretToken is
masked by both, while my_access_key is masked only by the storage
redactor. -/
theorem claim_c2 (k : String) :
    Backups.isSensitive k =
      (jsIncludes (jsToLowerCase k) "password" || jsIncludes (jsToLowerCase k) "secret" ||
       jsIncludes (jsToLowerCase k) "key" || jsIncludes (jsToLowerCase k) "token" ||
       jsIncludes (jsToLowerCase k) "credential")
    ∧ Notifiers.isSensitive k =
      (jsIncludes (jsToLowerCase k) "url" || jsIncludes (jsToLowerCase k) "token" ||
       jsIncludes (jsToLowerCase k) "api_key" || jsIncludes (jsToLowerCase k) "password" ||
       jsIncludes (jsToLowerCase k) "secret")
    ∧ Backups.maskSensitiveConfig [("my_access_key", Value.vStr "v")]
        = [("my_access_key", Value.vStr "***")]
    ∧ Backups.maskSensitiveConfig [("secretToken", Value.vStr "v")]
        = [("secretToken", Value.vStr "***")]
    ∧ Notifiers.maskSensitiveConfig [("secretToken", Value.vStr "v")]
        = [("secretToken", Value.vStr "***REDACTED***")]
    ∧ Notifiers.maskSensitiveConfig [("my_access_key", Value.vStr "v")]
        = [("my_access_key", Value.vStr "v")] :=
  ⟨Backups.storageSensitive_effective k, Notifiers.notifierSensitive_effective k,
   by decide, by decide, by decide, by decide⟩

/-- C2, counterexample to the claim as stated: a key containing url is
not masked by the storage-config redactor, and my_access_key is not
masked by the notification-channel redactor. -/
theorem claim_c2_counterexample :
    Backups.maskSensitiveConfig [("url", Value.vStr "https://internal")]
      = [("url", Value.vStr "https://internal")]
    ∧ Notifiers.maskSensitiveConfig [("my_access_key", Value.vStr "k")]
      = [("my_access_key", Value.vStr "k")]
    ∧ ("https://internal" : String) ≠ "***"
    ∧ ("k" : String) ≠ "***REDACTED***" :=
  ⟨by decide, by decide, by decide, by decide⟩

/-- C3 (confirmed).  Content-Type is always present; a configured
(truthy) bearer token yields the Authorization header and suppresses
X-API-Key even when an API key is configured; with no truthy bearer
token, a configured API key yields X-API-Key and no Authorization; with
neither, neither header is present. -/
theorem claim_c3 (c : DatabasusClient) :
    assocLookup "Content-Type" c.getHeaders = some "application/json"
    ∧ (∀ t, c.bearerToken = some t → t ≠ "" →
        assocLookup "Authorization" c.getHeaders = some ("Bearer " ++ t)
        ∧ assocLookup "X-API-Key" c.getHeaders = none)
    ∧ (jsTruthy c.bearerToken = false → ∀ a, c.apiKey = some a → a ≠ "" →
        assocLookup "X-API-Key" c.getHeaders = some a
        ∧ assocLookup "Authorization" c.getHeaders = none)
    ∧ (jsTruthy c.bearerToken = false → jsTruthy c.apiKey = false →
        assocLookup "Authorization" c.getHeaders = none
        ∧ assocLookup "X-API-Key" c.getHeaders = none) := by
  refine ⟨?_, ?_, ?_, ?_⟩
  · by_cases hb : jsTruthy c.bearerToken = true
    · simp only [DatabasusClient.getHeaders]
      rw [if_pos hb]
      rfl
    · by_cases ha : jsTruthy c.apiKey = true
      · simp only [DatabasusClient.getHeaders]
        rw [if_neg hb, if_pos ha]
        rfl
      · simp only [DatabasusClient.getHeaders]
        rw [if_neg hb, if_neg ha]
        rfl
  · intro t ht htne
    have hb : jsTruthy c.bearerToken = true := by
      rw [ht]
      simp [jsTruthy, htne]
    simp only [DatabasusClient.getHeaders]
    rw [if_pos hb, ht]
    exact ⟨rfl, rfl⟩
  · intro hbf a ha hane
    have hat : jsTruthy c.apiKey = true := by
      rw [ha]
      simp [jsTruthy, hane]
    simp only [DatabasusClient.getHeaders]
    rw [if_neg (by simp [hbf]), if_pos hat, ha]
    exact ⟨rfl, rfl⟩
  · intro hbf haf
    simp only [DatabasusClient.getHeaders]
    rw [if_neg (by simp [hbf]), if_neg (by simp [haf])]
    exact ⟨rfl, rfl⟩

/-- C3, witness: with both a bearer token and an API key configured,
the Authorization header is present and X-API-Key is absent. -/
theorem claim_c3_witness :
    assocLookup "Authorization"
        (DatabasusClient.getHeaders ⟨"http://h", some "k", some "t"⟩)
      = some ("Bearer " ++ "t")
    ∧ assocLookup "X-API-Key"
        (DatabasusClient.getHeaders ⟨"http://h", some "k", some "t"⟩) = none :=
  (claim_c3 ⟨"http://h", some "k", some "t"⟩).2.1 "t" rfl (by decide)

/-- C4 (confirmed).  A non-empty body that fails to parse raises the
invalid-JSON error carrying the body truncated to its first 100
characters; the slice is unconditional, so a shorter body appears in
full and a longer one is cut to exactly 100 characters. -/
theorem claim_c4 (parse : String → Option Value) (resp : HttpResponse)
    (hne : resp.text ≠ "") (hbad : parse resp.text = none) :
    handleResponse parse resp
      = .error ("Invalid JSON response: " ++ jsSubstring resp.text 100)
    ∧ (resp.text.length ≤ 100 → jsSubstring resp.text 100 = resp.text)
    ∧ (100 ≤ resp.text.length → (jsSubstring resp.text 100).length = 100) := by
  refine ⟨?_, ?_, ?_⟩
  · simp only [handleResponse]
    rw [if_neg hne, hbad]
  · intro h
    have ht : resp.text.data.take 100 = resp.text.data := List.take_of_length_le h
    show (⟨resp.text.data.take 100⟩ : String) = resp.text
    rw [ht]
  · intro h
    show (resp.text.data.take 100).length = 100
    rw [List.length_take]
    exact Nat.min_eq_left h

/-- C4, witness: a 200 response with the body from the spec example. -/
theorem claim_c4_witness :
    handleResponse (fun _ => none) ⟨200, "not valid json"⟩
      = .error ("Invalid JSON response: " ++ jsSubstring "not valid json" 100)
    ∧ jsSubstring "not valid json" 100 = "not valid json" :=
  ⟨(claim_c4 (fun _ => none) ⟨200, "not valid json"⟩ (by decide) rfl).1,
   (claim_c4 (fun _ => none) ⟨200, "not valid json"⟩ (by decide) rfl).2.1 (by decide)⟩

/-- C5 (confirmed).  On a non-2xx response whose body parsed as JSON
(or was empty), the thrown message is the string error field if
present, else the string message field if present, else the generic
HTTP-error text with the status. -/
theorem claim_c5 (parse : String → Option Value) (resp : HttpResponse)
    (fields : List (String × Value)) (s : String)
    (hok : resp.ok = false) (hne : resp.text ≠ "")
    (hparse : parse resp.text = some (Value.vObj fields)) :
    (assocLookup "error" fields = some (Value.vStr s) →
        handleResponse parse resp = .error s)
    ∧ ((∀ t, assocLookup "error" fields ≠ some (Value.vStr t)) →
        assocLookup "message" fields = some (Value.vStr s) →
        handleResponse parse resp = .error s)
    ∧ ((∀ t, assocLookup "error" fields ≠ some (Value.vStr t)) →
        (∀ t, assocLookup "message" fields ≠ some (Value.vStr t)) →
        handleResponse parse resp = .error ("HTTP error " ++ toString resp.status))
    ∧ (∀ r : HttpResponse, r.ok = false → r.text = "" →
        handleResponse parse r = .error ("HTTP error " ++ toString r.status)) := by
  have hbase : handleResponse parse resp
      = .error (extractErrorMessage (some (Value.vObj fields)) resp.status) := by
    simp only [handleResponse]
    rw [if_neg hne, hparse]
    show (if resp.ok = true then Except.ok (some (Value.vObj fields))
        else Except.error (extractErrorMessage (some (Value.vObj fields)) resp.status)) = _
    rw [if_neg (by simp [hok])]
  refine ⟨?_, ?_, ?_, ?_⟩
  · intro herr
    rw [hbase]
    simp only [extractErrorMessage]
    rw [herr]
  · intro hno hmsg
    rw [hbase, extract_no_error_str fields resp.status hno, hmsg]
  · intro hno hnomsg
    rw [hbase, extract_no_error_str fields resp.status hno,
      extract_no_message_str fields resp.status hnomsg]
  · intro r hrok hrtext
    simp only [handleResponse]
    rw [if_pos hrtext, if_neg (by simp [hrok])]
    rfl

/-- C5, witness: a 404 response whose body has an error field. -/
theorem claim_c5_witness :
    handleResponse (fun _ => some (Value.vObj [("error", Value.vStr "Database not found")]))
        ⟨404, "x"⟩ = .error "Database not found" :=
  (claim_c5 (fun _ => some (Value.vObj [("error", Value.vStr "Database not found")]))
      ⟨404, "x"⟩ [("error", Value.vStr "Database not found")] "Database not found"
      (by decide) (by decide) rfl).1 rfl

/-- C6 (confirmed).  A rejected fetch yields the network-error message
built from the Error message, or the fixed Unknown-error text for a
non-Error rejection value. -/
theorem claim_c6 (parse : String → Option Value) (m : String) :
    request parse (.rejected (.jsError m)) = .error ("Network error: " ++ m)
    ∧ request parse (.rejected .notAnError) = .error ("Network error: Unknown error") :=
  ⟨rfl, rfl⟩

/-- C7 (confirmed).  The JSON-parse step precedes the status check: a
non-empty unparseable body yields the invalid-JSON error whatever the
status, and in particular a non-2xx response with such a body does not
produce the HTTP-error message of the ApiError branch. -/
theorem claim_c7 (parse : String → Option Value) (resp : HttpResponse)
    (hne : resp.text ≠ "") (hbad : parse resp.text = none) :
    request parse (.resolved resp)
      = .error ("Invalid JSON response: " ++ jsSubstring resp.text 100)
    ∧ (resp.ok = false →
        request parse (.resolved resp) ≠ .error (extractErrorMessage none resp.status)) := by
  have h1 : request parse (.resolved resp)
      = .error ("Invalid JSON response: " ++ jsSubstring resp.text 100) := by
    show handleResponse parse resp = _
    simp only [handleResponse]
    rw [if_neg hne, hbad]
  refine ⟨h1, ?_⟩
  intro _ hcontra
  rw [h1] at hcontra
  injection hcontra with heq
  exact absurd heq (invalidJson_ne_httpError (jsSubstring resp.text 100) resp.status)

/-- C7, witness: a 500 response with an unparseable body still raises
the invalid-JSON error. -/
theorem claim_c7_witness :
    request (fun _ => none) (.resolved ⟨500, "oops"⟩)
      = .error ("Invalid JSON response: " ++ jsSubstring "oops" 100) :=
  (claim_c7 (fun _ => none) ⟨500, "oops"⟩ (by decide) rfl).1

/-- C8 (confirmed).  The constructor removes exactly one trailing slash
when present (a URL ending in two slashes keeps one), leaves a URL with
no trailing slash unchanged, and stores the credentials exactly as
given; the client state is a pure function of the configuration and is
never modified afterwards. -/
theorem claim_c8 (s : String) (cfg : DatabasusConfig) :
    replaceTrailingSlashOnce (s ++ "/") = s
    ∧ (s.data.getLast? ≠ some '/' → replaceTrailingSlashOnce s = s)
    ∧ replaceTrailingSlashOnce "http://h//" = "http://h/"
    ∧ (DatabasusClient.make cfg).baseUrl = replaceTrailingSlashOnce cfg.baseUrl
    ∧ (DatabasusClient.make cfg).apiKey = cfg.apiKey
    ∧ (DatabasusClient.make cfg).bearerToken = cfg.bearerToken := by
  refine ⟨?_, ?_, by decide, rfl, rfl, rfl⟩
  · unfold replaceTrailingSlashOnce
    rw [ String.data_append]
    have hsl : ("/" : String).data = ['/'] := rfl
    rw [hsl, List.getLast?_concat, List.dropLast_concat, if_pos rfl]
  · intro h
    unfold replaceTrailingSlashOnce
    rw [if_neg h]

/-- C8, witness: the two slash behaviours at a concrete URL. -/
theorem claim_c8_witness :
    replaceTrailingSlashOnce ("http://api.example.com" ++ "/") = "http://api.example.com"
    ∧ replaceTrailingSlashOnce "http://api.example.com" = "http://api.example.com" :=
  ⟨(claim_c8 "http://api.example.com" ⟨"x", none, none⟩).1,
   (claim_c8 "http://api.example.com" ⟨"x", none, none⟩).2.1 (by decide)⟩

/-- C9 (confirmed).  Both redactors are idempotent: applying a redactor
to its own output gives that output again.  (Both are Lean functions
of their input alone, so determinism and absence of side effects hold
by construction of the embedding.) -/
theorem claim_c9 (config : List (String × Value)) :
    Backups.maskSensitiveConfig (Backups.maskSensitiveConfig config)
      = Backups.maskSensitiveConfig config
    ∧ Notifiers.maskSensitiveConfig (Notifiers.maskSensitiveConfig config)
      = Notifiers.maskSensitiveConfig config :=
  ⟨Backups.maskFields_idem config, Notifiers.mask_idem config⟩

/-- C10 (confirmed).  Both redactors preserve the key list (names and
order) of every level they process, and an entry that is neither
masked nor recursed into keeps its value: for the storage redactor a
non-sensitive or non-string value that is not an object or array is
returned unchanged, and for the notification redactor every entry that
is not a sensitive string is copied unchanged.  (The input itself is
never mutated: both functions build a fresh list.) -/
theorem claim_c10 (config : List (String × Value)) :
    (Backups.maskSensitiveConfig config).map Prod.fst = config.map Prod.fst
    ∧ (Notifiers.maskSensitiveConfig config).map Prod.fst = config.map Prod.fst
    ∧ (∀ k v, ¬(Backups.isSensitive k = true ∧ v.isString = true) →
        (∀ fs, v ≠ Value.vObj fs) → (∀ es, v ≠ Value.vArr es) →
        Backups.maskEntry k v = v)
    ∧ (∀ k v rest, ¬(Notifiers.isSensitive k = true ∧ v.isString = true) →
        Notifiers.maskSensitiveConfig ((k, v) :: rest)
          = (k, v) :: Notifiers.maskSensitiveConfig rest) := by
  refine ⟨Backups.maskFields_keys config, Notifiers.mask_keys config, ?_, ?_⟩
  · intro k v h1 h2 h3
    cases v with
    | vObj fields => exact absurd rfl (h2 fields)
    | vArr elems => exact absurd rfl (h3 elems)
    | vStr str =>
      have hfalse : Backups.isSensitive k = false := by
        cases hb : Backups.isSensitive k
        · rfl
        · exact absurd ⟨hb, rfl⟩ h1
      simp [Backups.maskEntry, hfalse]
    | vNum n => simp [Backups.maskEntry, Value.isString]
    | vBool b => simp [Backups.maskEntry, Value.isString]
    | vNull => simp [Backups.maskEntry, Value.isString]
  · intro k v rest h
    have hc : ¬((Notifiers.isSensitive k && v.isString) = true) := by
      intro hb
      have hx1 : Notifiers.isSensitive k = true := by
        cases hx : Notifiers.isSensitive k
        · rw [hx] at hb
          simp at hb
        · rfl
      have hx2 : v.isString = true := by
        cases hx : v.isString
        · rw [hx] at hb
          simp at hb
        · rfl
      exact h ⟨hx1, hx2⟩
    simp only [Notifiers.maskSensitiveConfig]
    rw [if_neg hc]

/-- C10, witness: a non-sensitive string entry passes through both
redactors unchanged. -/
theorem claim_c10_witness :
    Backups.maskEntry "host" (Value.vStr "h") = Value.vStr "h"
    ∧ Notifiers.maskSensitiveConfig [("host", Value.vStr "h")]
        = ("host", Value.vStr "h") :: Notifiers.maskSensitiveConfig [] :=
  ⟨(claim_c10 []).2.2.1 "host" (Value.vStr "h") (by decide)
      (fun fs hx => Value.noConfusion hx) (fun es hx => Value.noConfusion hx),
   (claim_c10 []).2.2.2 "host" (Value.vStr "h") [] (by decide)⟩
